import Mathlib

/-!
A verification development for the robotic-arm controller
(`kinematics.py`, `automation.py`, `config.py`, `communication.py`).

Embedding conventions:

* Python floats are modelled as elements of a linear ordered field `K`
  (instantiated at `ℝ` for statements that mention the constant `np.pi`
  or numpy's trigonometric functions, and evaluated at `ℚ` in concrete
  runs).  The float constant `np.pi` is passed around as an explicit
  parameter `piv`.
* Calls into external libraries (ikpy's `chain.inverse_kinematics_frame`
  and `chain.forward_kinematics`, numpy's `np.linalg.norm`, and the
  serial transport's `send_command`) are modelled as oracle parameters:
  the claims under study quantify over their behaviour.
* Python exceptions are modelled with `Except`/`Option`; a `Python`
  list is a Lean `List`.
* The cooperative `task_stop_flag` / `task_pause_flag` fields are
  modelled as Booleans that are constant for the duration of one run
  (the single-threaded abstraction of the polling loops); a pause with
  no stop pending makes the polling loop spin forever, which the model
  renders as `none` (divergence).
* Loops carry a ghost `trace`/`sent` field recording, respectively, the
  clamped servo angles produced by each solver iteration and the servo
  angle vectors handed to the dispatch layer.  These fields are written
  to but never read by the embedded code, so they do not alter its
  behaviour.
-/

namespace RoboArm

section Kinematics

variable {K : Type} [LinearOrderedField K]

/-- `SERVO_LIMITS` from `config.py`: per-servo `(min, max)` angle ranges
in degrees; index 5 is the gripper. -/
def SERVO_LIMITS : List (K × K) :=
  [(0, 270), (50, 210), (20, 250), (40, 210), (40, 210), (100, 175)]

/-- `DEFAULT_ANGLES` from `config.py`. -/
def DEFAULT_ANGLES : List K := [190, 130, 130, 130, 130, 130]

/-- `np.radians`: degrees to radians; `piv` stands for `np.pi`. -/
def radians (piv x : K) : K := x * piv / 180

/-- `np.degrees`: radians to degrees; `piv` stands for `np.pi`. -/
def degrees (piv x : K) : K := x * 180 / piv

/-- `KinematicsCalculator.servo_angle_to_chain_angle` (`kinematics.py`):
servo angle list (6 entries) to IKPy chain angle list (10 entries); the
fixed links always get angle 0.  Out-of-range indexing, which in Python
would raise, is modelled with `List.getD _ 0`; every call site passes a
6-element list. -/
def servo_angle_to_chain_angle (piv : K) (servo_angles : List K) : List K :=
  [radians piv (servo_angles.getD 0 0 - 190), 0,
   radians piv (-(servo_angles.getD 1 0 - 130)), 0,
   radians piv (servo_angles.getD 2 0 - 130), 0,
   radians piv (servo_angles.getD 3 0 - 130), 0,
   radians piv (-(servo_angles.getD 4 0 - 130)), 0]

/-- `KinematicsCalculator.chain_angle_to_servo_angle` (`kinematics.py`):
IKPy chain angles (10 entries) to servo angles (6 entries); servo 5 (the
gripper) is passed through unchanged. -/
def chain_angle_to_servo_angle (piv : K) (chain_angles : List K)
    (current_gripper_angle : K) : List K :=
  [degrees piv (chain_angles.getD 0 0) + 190,
   -(degrees piv (chain_angles.getD 2 0)) + 130,
   degrees piv (chain_angles.getD 4 0) + 130,
   degrees piv (chain_angles.getD 6 0) + 130,
   -(degrees piv (chain_angles.getD 8 0)) + 130,
   current_gripper_angle]

/-- One clamp `servo_angles[j] = max(min_angle, min(max_angle, servo_angles[j]))`
of `inverse_kinematics`. -/
def clampLimit (lim : K × K) (v : K) : K := max lim.1 (min lim.2 v)

/-- The clamping loop `for j in range(5)` of `inverse_kinematics`,
which clamps the five kinematic joints to `SERVO_LIMITS` and leaves the
gripper entry untouched.  Its only call site feeds it the 6-element
output of `chain_angle_to_servo_angle`; on any other shape the Python
loop would raise, which the fallback branch never exercised here stands
in for. -/
def clampServo (s : List K) : List K :=
  match s with
  | [a0, a1, a2, a3, a4, a5] =>
      [clampLimit ((SERVO_LIMITS : List (K × K)).getD 0 (0, 0)) a0,
       clampLimit ((SERVO_LIMITS : List (K × K)).getD 1 (0, 0)) a1,
       clampLimit ((SERVO_LIMITS : List (K × K)).getD 2 (0, 0)) a2,
       clampLimit ((SERVO_LIMITS : List (K × K)).getD 3 (0, 0)) a3,
       clampLimit ((SERVO_LIMITS : List (K × K)).getD 4 (0, 0)) a4,
       a5]
  | s => s

/-- `np.max(np.abs(np.array(a) - np.array(b)))` as used by the
convergence test of `inverse_kinematics` (both arrays have 6 entries). -/
def maxAbsDiff (a b : List K) : K :=
  ((a.zip b).map (fun p => |p.1 - p.2|)).foldl max 0

/-- Convergence tolerance `tol = 1e-3` of `inverse_kinematics`
(degrees). -/
def tol : K := 1 / 1000

/-- Iteration cap `max_iter = 10` of `inverse_kinematics`. -/
def max_iter : ℕ := 10

/-- Mutable locals of the `for i in range(max_iter)` loop of
`inverse_kinematics`.  `minError = ⊤` models the initial
`float('inf')`; `trace` is ghost instrumentation recording each
iteration's clamped servo angles. -/
structure IKState (K : Type) where
  minError : WithTop K
  best : Option (List K)
  prev : Option (List K)
  currentChain : List K
  trace : List (List K)

/-- The error measurement and best-result tracking of one loop
iteration of `inverse_kinematics` (`error = np.linalg.norm(...)`; `if
error < min_error: min_error = error; best_servo_angles =
servo_angles.copy()`), plus the ghost trace append. -/
def ikUpdate (err : List K → K) (st : IKState K) (servo : List K) : IKState K :=
  { st with
    minError := if (err servo : WithTop K) < st.minError then (err servo : WithTop K) else st.minError
    best := if (err servo : WithTop K) < st.minError then some servo else st.best
    trace := st.trace ++ [servo] }

/-- End-of-iteration bookkeeping of `inverse_kinematics`:
`prev_servo_angles = servo_angles.copy()` and `current_chain_angles =
self.servo_angle_to_chain_angle(servo_angles)`. -/
def ikNext (piv : K) (st : IKState K) (servo : List K) : IKState K :=
  { st with prev := some servo
            currentChain := servo_angle_to_chain_angle piv servo }

/-- The body of `for i in range(max_iter)` in `inverse_kinematics`
(`kinematics.py` lines 160-190), with fuel standing for the remaining
range.  `solver` models `self.chain.inverse_kinematics_frame(target_frame,
initial_position=...)` (the target frame is fixed for the whole call, so
it is folded into the oracle); a raised exception is an `Except.error`,
re-raised by the loop as the Python code re-raises `ValueError`.
`err` models `np.linalg.norm(self.forward_kinematics(servo) - target_position)`,
the composition of ikpy forward kinematics and the numpy norm. -/
def ikLoop (solver : List K → Except String (List K)) (err : List K → K)
    (piv grip : K) : ℕ → IKState K → Except String (IKState K)
  | 0, st => .ok st
  | n + 1, st =>
    match solver st.currentChain with
    | .error e => .error ("逆运动学计算失败: " ++ e)
    | .ok chainAngles =>
      let servo := clampServo (chain_angle_to_servo_angle piv chainAngles grip)
      let st1 : IKState K := ikUpdate err st servo
      match st.prev with
      | none => ikLoop solver err piv grip n (ikNext piv st1 servo)
      | some prev =>
          if maxAbsDiff servo prev < (tol : K) then .ok st1
          else ikLoop solver err piv grip n (ikNext piv st1 servo)

/-- `KinematicsCalculator.inverse_kinematics` (`kinematics.py`): checks
that the flattened target has exactly 3 components (else raises
`ValueError`), then runs the bounded iteration and returns
`(best_servo_angles, min_error)`, together with the ghost iteration
trace.  `target_position` is the already-flattened coordinate list. -/
def inverse_kinematics (solver : List K → Except String (List K))
    (err : List K → K) (piv : K) (target_position : List K)
    (current_angles : List K) :
    Except String (Option (List K) × WithTop K × List (List K)) :=
  let initial_position := servo_angle_to_chain_angle piv current_angles
  if target_position.length ≠ 3 then
    .error ("目标位置必须是3D坐标，当前长度: " ++ toString target_position.length)
  else
    match ikLoop solver err piv (current_angles.getD 5 0) max_iter
        { minError := ⊤, best := none, prev := none,
          currentChain := initial_position, trace := [] } with
    | .error e => .error e
    | .ok st => .ok (st.best, st.minError, st.trace)

/-- Specification fold: the best-result selection rule of one loop
iteration (`if error < min_error: min_error = error; best = copy`),
expressed as a step function on `(best, minError)` pairs. -/
def bestStep (err : List K → K) (acc : Option (List K) × WithTop K)
    (s : List K) : Option (List K) × WithTop K :=
  if (err s : WithTop K) < acc.2 then (some s, (err s : WithTop K)) else acc

/-- All five kinematic joints of a servo vector within their declared
`SERVO_LIMITS` range (the gripper entry, index 5, is exempt). -/
def inLimits (s : List K) : Prop :=
  ∀ j, j < 5 →
    ((SERVO_LIMITS : List (K × K)).getD j (0, 0)).1 ≤ s.getD j 0 ∧
    s.getD j 0 ≤ ((SERVO_LIMITS : List (K × K)).getD j (0, 0)).2

end Kinematics

section PathExecution

variable {K : Type} {P : Type}

/-- Mutable state touched by `AutomationController._execute_path`
(`automation.py`): the shared `current_angles` vector, plus a ghost
`sent` list recording the servo-angle vectors handed to
`create_position_command`/`send_command` (one entry per dispatch
call). -/
structure ExecState (K : Type) where
  current_angles : List K
  sent : List (List K)

/-- The update `for j in range(5): self.current_angles[j] = servo_angles[j]`
performed after a successful dispatch. -/
def update_first5 (a s : List K) : List K :=
  a.mapIdx fun j v => if j < 5 then s.getD j v else v

/-- The waypoint loop `for i in range(num_segments)` of
`AutomationController._execute_path`, already specialised to the
waypoints `path[1], ..., path[num_segments]` it visits (`waypoint =
path[i+1]`).  `ikS` models `self.kinematics.inverse_kinematics
(waypoint, current_angles)`, returning `none` when that call returns
`(None, inf)` (no solution found); `send` models the external
serializer-plus-transport pair `create_position_command`/`send_command`
and consumes the servo angles of the dispatched command.  The
stop/pause flags are constant for the run; a set pause flag with no
stop pending spins forever in `while task_pause_flag and not
task_stop_flag`, modelled as `none`.  Timing (`time.sleep`) is not
modelled. -/
def exec_waypoints (ikS : P → List K → Option (List K))
    (send : List K → Bool) (stopF pauseF : Bool) :
    List P → ExecState K → Option (Bool × ExecState K)
  | [], st => some (true, st)
  | w :: rest, st =>
    if stopF then some (false, st)
    else if pauseF then none
    else
      match ikS w st.current_angles with
      | none => exec_waypoints ikS send stopF pauseF rest st
      | some servo =>
        let st1 : ExecState K := { st with sent := st.sent ++ [servo] }
        if send servo then
          exec_waypoints ikS send stopF pauseF rest
            { st1 with current_angles := update_first5 st1.current_angles servo }
        else some (false, st1)

/-- `AutomationController._execute_path` (`automation.py` lines
281-317): `num_segments = len(path) - 1`; if `num_segments <= 0` it
returns `True` at once, otherwise it walks `path[1..]`. -/
def execute_path (ikS : P → List K → Option (List K))
    (send : List K → Bool) (stopF pauseF : Bool) (path : List P)
    (st : ExecState K) : Option (Bool × ExecState K) :=
  if path.length ≤ 1 then some (true, st)
  else exec_waypoints ikS send stopF pauseF (path.drop 1) st

/-- Specification fold: the dispatch sequence a run of `exec_waypoints`
produces when every IK solve and every dispatch succeeds — one command
per consumed waypoint, in order, each solved from the angle state left
by the previous dispatch. -/
def expected_sends (ikS : P → List K → Option (List K)) :
    List P → List K → List (List K)
  | [], _ => []
  | w :: r, a =>
    match ikS w a with
    | none => expected_sends ikS r a
    | some s => s :: expected_sends ikS r (update_first5 a s)

end PathExecution

section Automation

/-- `TaskState` from `config.py`. -/
inductive TaskState where
  | IDLE | RUNNING | PAUSED | COMPLETED | ERROR
deriving DecidableEq, Repr

/-- `AutoTaskStep` from `config.py`. -/
inductive AutoTaskStep where
  | MOVE_TO_SAFE_HEIGHT | MOVE_TO_PICKUP_ABOVE | MOVE_TO_PICKUP
  | GRIP_CLOSE | MOVE_UP_FROM_PICKUP | MOVE_TO_PLACE_ABOVE
  | MOVE_TO_PLACE | GRIP_OPEN | MOVE_UP_FROM_PLACE
  | RETURN_HOME | TASK_COMPLETE
deriving DecidableEq, Repr

/-- Outcome of one sub-step `action()` of
`AutomationController._execute_single_task`: returned truthy, returned
falsy, or raised (the `except` branch prints and returns `False`). -/
inductive StepOutcome where
  | ok | fail | exn
deriving DecidableEq, Repr

/-- The ordered 9-step list built by `_execute_single_task`. -/
def cycle_steps : List AutoTaskStep :=
  [.MOVE_TO_SAFE_HEIGHT, .MOVE_TO_PICKUP_ABOVE, .MOVE_TO_PICKUP,
   .GRIP_CLOSE, .MOVE_UP_FROM_PICKUP, .MOVE_TO_PLACE_ABOVE,
   .MOVE_TO_PLACE, .GRIP_OPEN, .MOVE_UP_FROM_PLACE]

/-- Engine-state fields read or written by the background loop of
`AutomationController`. -/
structure AutoState where
  task_state : TaskState
  current_task_index : ℕ
  current_step : AutoTaskStep
deriving DecidableEq, Repr

/-- The `for step, action in steps` loop of
`AutomationController._execute_single_task` (`automation.py` lines
201-225).  `res` gives each sub-step's outcome (the motion and gripper
actions delegate to the path layer and the transport, both external to
this loop); flags are constant for the run, with a pending pause and no
stop spinning forever (`none`).  A falsy or raising action makes the
loop return `False`. -/
def run_steps (res : AutoTaskStep → StepOutcome) (stopF pauseF : Bool) :
    List AutoTaskStep → AutoState → Option (Bool × AutoState)
  | [], st => some (true, st)
  | stp :: rest, st =>
    if stopF then some (false, st)
    else if pauseF then none
    else
      let st1 : AutoState := { st with current_step := stp }
      match res stp with
      | .ok => run_steps res stopF pauseF rest st1
      | .fail => some (false, st1)
      | .exn => some (false, st1)

/-- The `for task_index in range(total_tasks)` loop of
`AutomationController._execute_auto_task` (`automation.py` lines
144-159), over the list of task indices: break on the stop flag, run
one pick-place cycle, break if it failed or a stop was requested. -/
def run_cycles (res : ℕ → AutoTaskStep → StepOutcome)
    (stopF pauseF : Bool) : List ℕ → AutoState → Option AutoState
  | [], st => some st
  | i :: rest, st =>
    if stopF then some st
    else
      let st1 : AutoState := { st with current_task_index := i }
      match run_steps (res i) stopF pauseF cycle_steps st1 with
      | none => none
      | some (success, st2) =>
        if !success || stopF then some st2
        else run_cycles res stopF pauseF rest st2

/-- `AutomationController._execute_auto_task` (`automation.py` lines
139-185): the cycle loop followed by the completion logic.  `homeOK`
models the result of `_return_to_home_position()` (a dispatch to the
external transport); `total` is `len(self.pickup_points)`.  The outer
`except` branch (which would set `ERROR`) is unreachable in this model
because every sub-step exception is already caught inside
`_execute_single_task`. -/
def execute_auto_task (res : ℕ → AutoTaskStep → StepOutcome)
    (stopF pauseF return_home homeOK : Bool) (total : ℕ)
    (st : AutoState) : Option AutoState :=
  match run_cycles res stopF pauseF (List.range total) st with
  | none => none
  | some st' =>
    if !stopF && return_home then
      let st1 : AutoState := { st' with current_step := .RETURN_HOME }
      if homeOK then
        some { st1 with current_step := .TASK_COMPLETE, task_state := .COMPLETED }
      else
        some { st1 with task_state := .ERROR }
    else if !stopF then
      some { st' with current_step := .TASK_COMPLETE, task_state := .COMPLETED }
    else
      some { st' with task_state := .IDLE }

/-- Fields of `AutomationController` read or written by `start_task`,
with `workers` a ghost count of background threads spawned via
`threading.Thread(...).start()`. -/
structure EngineState (P : Type) where
  pickup_points : List P
  place_points : List P
  is_connected : Bool
  task_state : TaskState
  current_task_index : ℕ
  current_step : AutoTaskStep
  task_stop_flag : Bool
  task_pause_flag : Bool
  workers : ℕ

/-- `AutomationController.start_task` (`automation.py` lines 92-115):
the three validation checks, then the state reset and the spawn of the
background worker.  Returns the Python `(ok, message)` pair next to the
updated state. -/
def start_task {P : Type} (st : EngineState P) :
    (Bool × String) × EngineState P :=
  if st.pickup_points.isEmpty || st.place_points.isEmpty then
    ((false, "请至少添加一个抓取点和一个放置点!"), st)
  else if st.pickup_points.length ≠ st.place_points.length then
    ((false, "抓取点和放置点数量必须相等!"), st)
  else if !st.is_connected then
    ((false, "请先连接串口!"), st)
  else
    ((true, "开始执行 " ++ toString st.pickup_points.length ++ " 个抓取-放置任务"),
     { st with
        task_state := .RUNNING
        current_task_index := 0
        current_step := .MOVE_TO_SAFE_HEIGHT
        task_stop_flag := false
        task_pause_flag := false
        workers := st.workers + 1 })

end Automation

section Slerp

/-- A 3D point, as handled by the numpy arrays of
`AutomationController._get_slerp_path`. -/
abbrev V3 : Type := ℝ × ℝ × ℝ

/-- Componentwise vector sum. -/
def vadd (a b : V3) : V3 := (a.1 + b.1, a.2.1 + b.2.1, a.2.2 + b.2.2)

/-- Scalar multiple. -/
def vsmul (t : ℝ) (a : V3) : V3 := (t * a.1, t * a.2.1, t * a.2.2)

/-- `np.dot`. -/
def dot3 (a b : V3) : ℝ := a.1 * b.1 + a.2.1 * b.2.1 + a.2.2 * b.2.2

/-- `np.linalg.norm` on a 3-vector. -/
noncomputable def vnorm (a : V3) : ℝ := Real.sqrt (dot3 a a)

/-- The linear-interpolation fallback loop of `_get_slerp_path`:
`[p1*(1-t) + p2*t for t = i/num_steps, i = 1..num_steps]`. -/
noncomputable def lin_path (p1 p2 : V3) (num_steps : ℕ) : List V3 :=
  (List.range num_steps).map fun (i : ℕ) =>
    let t : ℝ := ((i : ℝ) + 1) / (num_steps : ℝ)
    vadd (vsmul (1 - t) p1) (vsmul t p2)

/-- The angle `omega = np.arccos(np.clip(np.dot(u1, u2), -1.0, 1.0))`
between the unit direction vectors of `p1` and `p2`, as computed by
`_get_slerp_path`. -/
noncomputable def slerpOmega (p1 p2 : V3) : ℝ :=
  Real.arccos (min 1 (max (-1)
    (dot3 (vsmul (1 / vnorm p1) p1) (vsmul (1 / vnorm p2) p2))))

/-- `AutomationController._get_slerp_path` (`automation.py` lines
380-411): returns `num_steps` points from `p1` (excluded) to `p2`,
falling back to linear interpolation when either endpoint is within
`1e-6` of the origin or when the angle between the direction unit
vectors is below `np.radians(1.0)`. -/
noncomputable def get_slerp_path (p1 p2 : V3) (num_steps : ℕ) : List V3 :=
  let r1 := vnorm p1
  let r2 := vnorm p2
  if r1 < 1e-6 ∨ r2 < 1e-6 then lin_path p1 p2 num_steps
  else
    let u1 := vsmul (1 / r1) p1
    let u2 := vsmul (1 / r2) p2
    let omega := Real.arccos (min 1 (max (-1) (dot3 u1 u2)))
    if omega < radians Real.pi 1 then lin_path p1 p2 num_steps
    else
      (List.range num_steps).map fun (i : ℕ) =>
        let t : ℝ := ((i : ℝ) + 1) / (num_steps : ℝ)
        let f1 := Real.sin ((1 - t) * omega) / Real.sin omega
        let f2 := Real.sin (t * omega) / Real.sin omega
        vsmul ((1 - t) * r1 + t * r2) (vadd (vsmul f1 u1) (vsmul f2 u2))

end Slerp

section ConcreteInputs

/-!
Concrete inputs used to witness the theorems below and to exhibit
counterexamples: a synthetic solver for `inverse_kinematics` whose
iterates are, in servo space, `t0q`, then `t1q` (exactly `tol` away
from `t0q`), then `t1q` again, with the forward-kinematics error read
off servo 1 — so the second iterate has a larger error than the first.
-/

/-- First servo iterate of the synthetic solver (all joints in range). -/
def t0q : List ℚ := [190, 131, 130, 130, 130, 130]

/-- Second servo iterate: servo 1 moved by exactly `tol`. -/
def t1q : List ℚ := [190, 131 + 1 / 1000, 130, 130, 130, 130]

/-- Servo-space transition function of the synthetic solver. -/
def gq (s : List ℚ) : List ℚ :=
  if s.getD 1 0 = 130 then t0q
  else if s.getD 1 0 = 131 then t1q
  else s

/-- Synthetic numeric IK solver (a behaviour of ikpy's
`inverse_kinematics_frame`): reads the chain angles back into servo
space, applies `gq`, and answers in chain space.  `np.pi` is taken as
the rational 3 for this run, which only rescales the chain-angle
representation the solver and the loop exchange. -/
def solverq (c : List ℚ) : Except String (List ℚ) :=
  .ok (servo_angle_to_chain_angle 3 (gq (chain_angle_to_servo_angle 3 c 130)))

/-- Synthetic forward-kinematics error (a behaviour of
`np.linalg.norm(fk - target)`): the value of servo 1, making the later
iterate `t1q` strictly worse than `t0q`. -/
def errq (s : List ℚ) : ℚ := s.getD 1 0

/-- Sub-step outcomes for the failing automation run: the very first
sub-step (move to safe height) of every cycle reports failure. -/
def resFail : ℕ → AutoTaskStep → StepOutcome := fun _ s =>
  if s = .MOVE_TO_SAFE_HEIGHT then .fail else .ok

/-- An engine state with one valid pickup/place pair, a connected
transport, and an automation run already active (`RUNNING`, one worker
alive, the loop at task index 5). -/
def stRun : EngineState ℕ :=
  { pickup_points := [0], place_points := [1], is_connected := true,
    task_state := .RUNNING, current_task_index := 5,
    current_step := .MOVE_TO_PLACE, task_stop_flag := false,
    task_pause_flag := false, workers := 1 }

/-- A total IK oracle for path execution (waypoints indexed by `ℕ`):
every waypoint solves to the current angles. -/
def ikId : ℕ → List ℚ → Option (List ℚ) := fun _ a => some a

/-- An IK oracle that finds no solution exactly at waypoint `5`. -/
def ikNone5 : ℕ → List ℚ → Option (List ℚ) :=
  fun w a => if w = 5 then none else some a

/-- A dispatch oracle whose every send succeeds. -/
def sendOK : List ℚ → Bool := fun _ => true

end ConcreteInputs

/-! ## Theorems -/

section RoundTrip

variable {K : Type} [LinearOrderedField K]

/-- Degrees-of-radians cancellation, the algebraic core of the
servo-chain-servo round trip. -/
theorem deg_rad (piv : K) (hpi : piv ≠ 0) (x : K) :
    degrees piv (radians piv x) = x := by
  field_simp [degrees, radians]

/-- Generic round trip: on any explicit 6-entry servo vector,
`chain_angle_to_servo_angle` inverts `servo_angle_to_chain_angle`
exactly, provided the conversion constant is nonzero. -/
theorem servo_chain_roundtrip_generic (piv : K) (hpi : piv ≠ 0)
    (a b c d e g : K) :
    chain_angle_to_servo_angle piv
      (servo_angle_to_chain_angle piv [a, b, c, d, e, g]) g
    = [a, b, c, d, e, g] := by
  simp only [servo_angle_to_chain_angle, chain_angle_to_servo_angle,
    List.getD_cons_zero, List.getD_cons_succ, deg_rad piv hpi,
    List.cons.injEq, and_true]
  refine ⟨by ring, by ring, by ring, by ring, by ring⟩

/-- C8.  Round-trip angle mapping: for every servo-angle vector of 6
values within the declared servo ranges, converting with
`servo_angle_to_chain_angle` and back with
`chain_angle_to_servo_angle` (passing the original gripper entry as
`current_gripper_angle`) reproduces all six original values — in this
real-number model, exactly. -/
theorem servo_chain_servo_roundtrip (s : List ℝ) (h6 : s.length = 6)
    (hin : ∀ j, j < 6 →
      ((SERVO_LIMITS : List (ℝ × ℝ)).getD j (0, 0)).1 ≤ s.getD j 0 ∧
      s.getD j 0 ≤ ((SERVO_LIMITS : List (ℝ × ℝ)).getD j (0, 0)).2) :
    chain_angle_to_servo_angle Real.pi
      (servo_angle_to_chain_angle Real.pi s) (s.getD 5 0) = s := by
  obtain ⟨a, b, c, d, e, g, rfl⟩ : ∃ a b c d e g, s = [a, b, c, d, e, g] := by
    rcases s with _ | ⟨a, _ | ⟨b, _ | ⟨c, _ | ⟨d, _ | ⟨e, _ | ⟨g, _ | ⟨x, t⟩⟩⟩⟩⟩⟩⟩ <;>
      first
        | exact ⟨_, _, _, _, _, _, rfl⟩
        | simp at h6
  simpa using servo_chain_roundtrip_generic Real.pi Real.pi_ne_zero a b c d e g

/-- Witness for C8 at the in-range servo vector `[100, 130, 130, 130, 130, 130]`. -/
theorem servo_chain_servo_roundtrip_witness :
    chain_angle_to_servo_angle Real.pi
      (servo_angle_to_chain_angle Real.pi
        ([100, 130, 130, 130, 130, 130] : List ℝ))
      (([100, 130, 130, 130, 130, 130] : List ℝ).getD 5 0)
    = [100, 130, 130, 130, 130, 130] :=
  servo_chain_servo_roundtrip [100, 130, 130, 130, 130, 130] (by simp)
    (by
      intro j hj
      interval_cases j <;>
        simp [SERVO_LIMITS, List.getD] <;> norm_num)

end RoundTrip

section Validation

variable {K : Type} [LinearOrderedField K]

/-- C10.  A target whose flattened form does not have exactly 3
components makes `inverse_kinematics` fail synchronously with the
`ValueError` message, before any solver iteration runs: the result is
this error for every behaviour of the numeric solver and of the
error oracle. -/
theorem inverse_kinematics_rejects_non_3d
    (solver : List K → Except String (List K)) (err : List K → K)
    (piv : K) (target current : List K) (h : target.length ≠ 3) :
    inverse_kinematics solver err piv target current
      = .error ("目标位置必须是3D坐标，当前长度: " ++ toString target.length) := by
  simp [inverse_kinematics, h]

/-- Witness for C10 at the 2-component target `[1, 2]`. -/
theorem inverse_kinematics_rejects_non_3d_witness :
    inverse_kinematics (K := ℚ) (fun c => .ok c) (fun _ => 0) 3
      [1, 2] DEFAULT_ANGLES
      = .error ("目标位置必须是3D坐标，当前长度: " ++ toString ([1, 2] : List ℚ).length) :=
  inverse_kinematics_rejects_non_3d (fun c => .ok c) (fun _ => 0) 3 [1, 2]
    DEFAULT_ANGLES (by simp)

end Validation

section StartTask

/-- C7 counterexample.  Calling `start_task` while the engine state is
`RUNNING`, with valid task points and a connected transport, is not
rejected: it reports success, resets the task index, and spawns a
second background worker. -/
theorem start_task_accepts_while_running :
    stRun.task_state = TaskState.RUNNING ∧
    (start_task stRun).1.1 = true ∧
    (start_task stRun).2.workers = 2 ∧
    (start_task stRun).2.current_task_index = 0 ∧
    (start_task stRun).2.task_state = TaskState.RUNNING :=
  ⟨rfl, rfl, rfl, rfl, rfl⟩

/-- C7 amended.  `start_task`'s precondition check validates only the
point lists and the connection and never examines `task_state`:
whenever both lists are non-empty, of equal length, and the transport
is connected — in particular while a run is already `RUNNING` or
`PAUSED` — it reports success, resets the task index, state and flags,
and spawns one more background worker. -/
theorem start_task_ignores_active_state {P : Type} (st : EngineState P)
    (h1 : st.pickup_points ≠ []) (h2 : st.place_points ≠ [])
    (h3 : st.pickup_points.length = st.place_points.length)
    (h4 : st.is_connected = true) :
    (start_task st).1.1 = true ∧
    (start_task st).2 =
      { st with
          task_state := .RUNNING
          current_task_index := 0
          current_step := .MOVE_TO_SAFE_HEIGHT
          task_stop_flag := false
          task_pause_flag := false
          workers := st.workers + 1 } := by
  simp [start_task, h1, h2, h3, h4]

/-- Witness for C7's amended claim: the same already-running state. -/
theorem start_task_ignores_active_state_witness :
    (start_task stRun).1.1 = true ∧
    (start_task stRun).2 =
      { stRun with
          task_state := .RUNNING
          current_task_index := 0
          current_step := .MOVE_TO_SAFE_HEIGHT
          task_stop_flag := false
          task_pause_flag := false
          workers := stRun.workers + 1 } :=
  start_task_ignores_active_state stRun (by simp [stRun]) (by simp [stRun])
    (by simp [stRun]) (by simp [stRun])

end StartTask

section AutomationRun

/-- C1.  A run in which a pick-place sub-step fails while no stop was
ever requested does not end in `ERROR`: with one task pair, the first
sub-step failing, both flags unset and return-home disabled, the
background loop of `_execute_auto_task` finishes with `task_state =
COMPLETED` (and step `TASK_COMPLETE`). -/
theorem auto_task_step_failure_reports_completed :
    execute_auto_task resFail false false false false 1
      { task_state := .RUNNING, current_task_index := 0,
        current_step := .MOVE_TO_SAFE_HEIGHT }
    = some { task_state := .COMPLETED, current_task_index := 0, current_step := .TASK_COMPLETE } ∧
    TaskState.COMPLETED ≠ TaskState.ERROR :=
  ⟨rfl, by decide⟩

end AutomationRun

section PathExecutionProofs

variable {K : Type} {P : Type}

/-- Splitting a waypoint run: the executor processes `l1` first; only a
fully successful prefix continues into `l2`. -/
theorem exec_waypoints_append (ikS : P → List K → Option (List K))
    (send : List K → Bool) (stopF pauseF : Bool) (l1 l2 : List P)
    (st : ExecState K) :
    exec_waypoints ikS send stopF pauseF (l1 ++ l2) st =
      match exec_waypoints ikS send stopF pauseF l1 st with
      | some (true, st1) => exec_waypoints ikS send stopF pauseF l2 st1
      | r => r := by
  induction l1 generalizing st with
  | nil => simp [exec_waypoints]
  | cons w rest ih =>
    cases stopF with
    | true => simp [exec_waypoints]
    | false =>
      cases pauseF with
      | true => simp [exec_waypoints]
      | false =>
        cases hik : ikS w st.current_angles with
        | none => simp [exec_waypoints, hik, ih]
        | some servo =>
          cases hsend : send servo with
          | true => simp [exec_waypoints, hik, hsend, ih]
          | false => simp [exec_waypoints, hik, hsend]

/-- C2.  When IK finds no solution for an intermediate (non-final)
waypoint, the executor skips it and continues: if the waypoints before
it ran to completion reaching state `st'`, and IK fails at `w` from
`st'`, the whole path behaves exactly like the path that starts (as the
implicit current position) at `w` and continues with the remaining
waypoints from `st'` — the failure neither disturbs the remaining
waypoints nor by itself produces a failure result. -/
theorem ik_failure_skips_waypoint (ikS : P → List K → Option (List K))
    (send : List K → Bool) (p0 : P) (pre : List P) (w : P) (post : List P)
    (st st' : ExecState K)
    (hpre : exec_waypoints ikS send false false pre st = some (true, st'))
    (hik : ikS w st'.current_angles = none) (hpost : post ≠ []) :
    execute_path ikS send false false (p0 :: (pre ++ w :: post)) st
      = execute_path ikS send false false (w :: post) st' := by
  have hlen : ¬ (p0 :: (pre ++ w :: post)).length ≤ 1 := by
    simp [List.length_append]
  have hlen2 : ¬ (w :: post).length ≤ 1 := by
    cases post with
    | nil => exact absurd rfl hpost
    | cons a t => simp
  rw [execute_path, if_neg hlen, execute_path, if_neg hlen2]
  simp only [List.drop_one, List.tail_cons]
  rw [exec_waypoints_append, hpre]
  simp [exec_waypoints, hik]

/-- Every IK solve succeeding and every dispatch succeeding, with both
flags clear, the executor consumes all waypoints, reports success and
dispatches exactly the `expected_sends` sequence. -/
theorem exec_waypoints_total (ikS : P → List K → Option (List K))
    (send : List K → Bool) (hik : ∀ w a, (ikS w a).isSome = true)
    (hsend : ∀ s, send s = true) :
    ∀ (ws : List P) (st : ExecState K),
      ∃ st', exec_waypoints ikS send false false ws st = some (true, st') ∧
        st'.sent = st.sent ++ expected_sends ikS ws st.current_angles := by
  intro ws
  induction ws with
  | nil => exact fun st => ⟨st, rfl, by simp [expected_sends]⟩
  | cons w rest ih =>
    intro st
    obtain ⟨s, hs⟩ : ∃ s, ikS w st.current_angles = some s :=
      Option.isSome_iff_exists.mp (hik w st.current_angles)
    obtain ⟨st', h1, h2⟩ := ih
      { st with sent := st.sent ++ [s],
                current_angles := update_first5 st.current_angles s }
    refine ⟨st', ?_, ?_⟩
    · simpa [exec_waypoints, hs, hsend s] using h1
    · rw [h2]
      simp [expected_sends, hs]

/-- Under a total IK oracle, `expected_sends` has one entry per
waypoint. -/
theorem expected_sends_length (ikS : P → List K → Option (List K))
    (hik : ∀ w a, (ikS w a).isSome = true) :
    ∀ (ws : List P) (a : List K),
      (expected_sends ikS ws a).length = ws.length := by
  intro ws
  induction ws with
  | nil => intro a; simp [expected_sends]
  | cons w rest ih =>
    intro a
    obtain ⟨s, hs⟩ : ∃ s, ikS w a = some s :=
      Option.isSome_iff_exists.mp (hik w a)
    simp [expected_sends, hs, ih]

/-- Under a total IK oracle, the dispatched commands correspond
pairwise, in order, to the waypoints: each is an IK solution of its
waypoint. -/
theorem expected_sends_forall2 (ikS : P → List K → Option (List K))
    (hik : ∀ w a, (ikS w a).isSome = true) :
    ∀ (ws : List P) (a : List K),
      List.Forall₂ (fun w s => ∃ a0, ikS w a0 = some s) ws
        (expected_sends ikS ws a) := by
  intro ws
  induction ws with
  | nil => intro a; simp [expected_sends]
  | cons w rest ih =>
    intro a
    obtain ⟨s, hs⟩ : ∃ s, ikS w a = some s :=
      Option.isSome_iff_exists.mp (hik w a)
    rw [expected_sends, hs]
    exact List.Forall₂.cons ⟨a, hs⟩ (ih _)

/-- C3 amended.  For a sequence of `n ≥ 1` elements handed to the path
executor — whose first element plays the role of the implicit current
position and is never visited — with flags clear, IK succeeding
everywhere and every dispatch succeeding, the executor solves IK for
and dispatches exactly one joint command per remaining element, in
sequence order: `n - 1` dispatch calls, the last one for the final
(target) waypoint; in particular a single-element sequence dispatches
nothing and succeeds trivially. -/
theorem execute_path_dispatches_per_consumed_waypoint
    (ikS : P → List K → Option (List K)) (send : List K → Bool)
    (path : List P) (st : ExecState K) (hne : path ≠ [])
    (hsent : st.sent = []) (hik : ∀ w a, (ikS w a).isSome = true)
    (hsend : ∀ s, send s = true) :
    ∃ st', execute_path ikS send false false path st = some (true, st') ∧
      st'.sent = expected_sends ikS (path.drop 1) st.current_angles ∧
      st'.sent.length = path.length - 1 ∧
      List.Forall₂ (fun w s => ∃ a, ikS w a = some s) (path.drop 1) st'.sent := by
  cases path with
  | nil => exact absurd rfl hne
  | cons p0 rest =>
    cases rest with
    | nil =>
      refine ⟨st, rfl, ?_, ?_, ?_⟩ <;>
        simp [expected_sends, hsent]
    | cons w rest' =>
      obtain ⟨st', h1, h2⟩ := exec_waypoints_total ikS send hik hsend (w :: rest') st
      have hsent' : st'.sent = expected_sends ikS (w :: rest') st.current_angles := by
        rw [h2, hsent]; simp
      refine ⟨st', ?_, ?_, ?_, ?_⟩
      · rw [execute_path, if_neg (by simp)]
        simpa using h1
      · simpa using hsent'
      · rw [hsent', expected_sends_length ikS hik]
        simp
      · rw [List.drop_one, List.tail_cons, hsent']
        exact expected_sends_forall2 ikS hik (w :: rest') st.current_angles

/-- C3 counterexample.  The single-element sequence `[p]` (the path the
direct-move primitive hands to the executor) produces zero dispatch
calls and immediate success — not the one-dispatch-per-element the
claim states: the state, including its empty `sent` log, is returned
unchanged. -/
theorem single_point_path_dispatches_nothing :
    execute_path ikId sendOK false false [0]
      { current_angles := (DEFAULT_ANGLES : List ℚ), sent := [] }
    = some (true, { current_angles := (DEFAULT_ANGLES : List ℚ), sent := [] }) :=
  rfl

/-- Witness for C3's amended claim: a three-element sequence dispatches
exactly two commands. -/
theorem execute_path_dispatches_witness :
    ∃ st', execute_path ikId sendOK false false [0, 1, 2]
        { current_angles := (DEFAULT_ANGLES : List ℚ), sent := [] }
        = some (true, st') ∧
      st'.sent = expected_sends ikId ([0, 1, 2].drop 1)
        ({ current_angles := (DEFAULT_ANGLES : List ℚ), sent := [] } : ExecState ℚ).current_angles ∧
      st'.sent.length = [0, 1, 2].length - 1 ∧
      List.Forall₂ (fun w s => ∃ a, ikId w a = some s) ([0, 1, 2].drop 1) st'.sent :=
  execute_path_dispatches_per_consumed_waypoint ikId sendOK [0, 1, 2] _
    (by simp) rfl (fun _ _ => rfl) (fun _ => rfl)

/-- Witness for C2: a run whose IK oracle fails at waypoint `5`, placed
between the implicit start `4` and the final waypoint `7`, behaves like
the run on the remaining waypoint alone. -/
theorem ik_failure_skips_waypoint_witness :
    execute_path ikNone5 sendOK false false (4 :: ([] ++ 5 :: [7]))
      { current_angles := (DEFAULT_ANGLES : List ℚ), sent := [] }
    = execute_path ikNone5 sendOK false false (5 :: [7])
      { current_angles := (DEFAULT_ANGLES : List ℚ), sent := [] } :=
  ik_failure_skips_waypoint ikNone5 sendOK 4 [] 5 [7] _ _ rfl rfl (by simp)

end PathExecutionProofs

section InverseKinematicsProofs

variable {K : Type} [LinearOrderedField K]

/-- The best/minError pair of one iteration update is one `bestStep`. -/
theorem ikUpdate_pair (err : List K → K) (st : IKState K) (s : List K) :
    ((ikUpdate err st s).best, (ikUpdate err st s).minError)
      = bestStep err (st.best, st.minError) s := by
  simp only [ikUpdate, bestStep]
  split <;> simp

/-- One iteration appends its clamped servo vector to the trace. -/
theorem ikUpdate_trace (err : List K → K) (st : IKState K) (s : List K) :
    (ikUpdate err st s).trace = st.trace ++ [s] := rfl

/-- Clamping any explicit 6-entry vector lands the five kinematic
joints inside `SERVO_LIMITS` (each declared minimum is below its
maximum). -/
theorem clampServo_six_inLimits (a0 a1 a2 a3 a4 a5 : K) :
    inLimits (clampServo [a0, a1, a2, a3, a4, a5]) := by
  intro j hj
  interval_cases j <;>
    simp only [clampServo, clampLimit, SERVO_LIMITS, List.getD_cons_zero,
      List.getD_cons_succ] <;>
    exact ⟨le_max_left _ _, max_le (by norm_num) (min_le_left _ _)⟩

/-- The clamp of any converted chain result satisfies the joint
limits (the conversion always yields a 6-entry vector). -/
theorem clamp_conversion_inLimits (piv : K) (c : List K) (g : K) :
    inLimits (clampServo (chain_angle_to_servo_angle piv c g)) := by
  rw [chain_angle_to_servo_angle]
  exact clampServo_six_inLimits _ _ _ _ _ _

/-- Loop invariant for C5: the tracked best vector, whenever present,
is a clamped conversion result and hence inside the joint limits. -/
theorem ikLoop_best_inLimits (solver : List K → Except String (List K))
    (err : List K → K) (piv grip : K) :
    ∀ (n : ℕ) (st st' : IKState K),
      (∀ b, st.best = some b → inLimits b) →
      ikLoop solver err piv grip n st = .ok st' →
      ∀ b, st'.best = some b → inLimits b := by
  intro n
  induction n with
  | zero =>
    intro st st' h hok
    rw [ikLoop] at hok
    cases hok
    exact h
  | succ n ih =>
    intro st st' h hok
    rw [ikLoop] at hok
    split at hok
    · cases hok
    · rename_i c hsol
      have hstep : ∀ b,
          (ikUpdate err st (clampServo (chain_angle_to_servo_angle piv c grip))).best
            = some b → inLimits b := by
        intro b hb
        simp only [ikUpdate] at hb
        by_cases hlt :
            ((err (clampServo (chain_angle_to_servo_angle piv c grip)) : K) : WithTop K)
              < st.minError
        · rw [if_pos hlt] at hb
          cases hb
          exact clamp_conversion_inLimits piv c grip
        · rw [if_neg hlt] at hb
          exact h b hb
      split at hok
      · exact ih _ _ (by simpa [ikNext] using hstep) hok
      · dsimp only at hok
        split at hok
        · cases hok
          exact hstep
        · exact ih _ _ (by simpa [ikNext] using hstep) hok

/-- Loop invariant for C4: the `(best, minError)` pair always equals
the `bestStep` fold of the iteration trace. -/
theorem ikLoop_best_fold (solver : List K → Except String (List K))
    (err : List K → K) (piv grip : K) :
    ∀ (n : ℕ) (st st' : IKState K),
      (st.best, st.minError) = st.trace.foldl (bestStep err) (none, ⊤) →
      ikLoop solver err piv grip n st = .ok st' →
      (st'.best, st'.minError) = st'.trace.foldl (bestStep err) (none, ⊤) := by
  intro n
  induction n with
  | zero =>
    intro st st' h hok
    rw [ikLoop] at hok
    cases hok
    exact h
  | succ n ih =>
    intro st st' h hok
    rw [ikLoop] at hok
    split at hok
    · cases hok
    · rename_i c hsol
      have hstep :
          ((ikUpdate err st (clampServo (chain_angle_to_servo_angle piv c grip))).best,
           (ikUpdate err st (clampServo (chain_angle_to_servo_angle piv c grip))).minError)
            = (ikUpdate err st (clampServo (chain_angle_to_servo_angle piv c grip))).trace.foldl
                (bestStep err) (none, ⊤) := by
        rw [ikUpdate_pair, ikUpdate_trace, List.foldl_append, ← h]
        simp [List.foldl]
      split at hok
      · exact ih _ _ (by simpa [ikNext] using hstep) hok
      · dsimp only at hok
        split at hok
        · cases hok
          exact hstep
        · exact ih _ _ (by simpa [ikNext] using hstep) hok

/-- The `bestStep` fold of a non-empty trace returns its first
minimal-error entry together with that minimal error. -/
theorem bestFold_spec (err : List K → K) (tr : List (List K)) (hne : tr ≠ []) :
    ∃ i, i < tr.length ∧
      tr.foldl (bestStep err) (none, ⊤)
        = (some (tr.getD i []), (err (tr.getD i []) : WithTop K)) ∧
      (∀ j, j < tr.length → err (tr.getD i []) ≤ err (tr.getD j [])) ∧
      ∀ j, j < i → err (tr.getD i []) < err (tr.getD j []) := by
  induction tr using List.reverseRecOn with
  | nil => exact absurd rfl hne
  | append_singleton l a ih =>
    rcases eq_or_ne l [] with rfl | hl
    · refine ⟨0, by simp, ?_, ?_, ?_⟩
      · simp [bestStep]
      · intro j hj
        have hj0 : j = 0 := by simp at hj; omega
        subst hj0
        simp
      · intro j hj
        omega
    · obtain ⟨i, hi, hfold, hmin, hfirst⟩ := ih hl
      have hga : (l ++ [a]).getD l.length [] = a := by
        rw [List.getD_append_right l [a] _ _ le_rfl]
        simp
      by_cases hc : err a < err (l.getD i [])
      · refine ⟨l.length, by simp, ?_, ?_, ?_⟩
        · rw [List.foldl_append, hfold, hga]
          simp only [List.foldl_cons, List.foldl_nil, bestStep]
          rw [if_pos (WithTop.coe_lt_coe.mpr hc)]
        · intro j hj
          rw [hga]
          rcases Nat.lt_or_ge j l.length with hjl | hjr
          · rw [List.getD_append l [a] _ _ hjl]
            exact le_of_lt (lt_of_lt_of_le hc (hmin j hjl))
          · have hj' : j = l.length := by
              simp only [List.length_append, List.length_cons, List.length_nil] at hj
              omega
            subst hj'
            rw [hga]
        · intro j hj
          rw [hga, List.getD_append l [a] _ _ hj]
          exact lt_of_lt_of_le hc (hmin j hj)
      · have hgi : (l ++ [a]).getD i [] = l.getD i [] := List.getD_append l [a] _ _ hi
        refine ⟨i, by simp only [List.length_append, List.length_cons, List.length_nil]; omega,
          ?_, ?_, ?_⟩
        · rw [List.foldl_append, hfold, hgi]
          simp only [List.foldl_cons, List.foldl_nil, bestStep]
          rw [if_neg (fun h => hc (WithTop.coe_lt_coe.mp h))]
        · intro j hj
          rw [hgi]
          rcases Nat.lt_or_ge j l.length with hjl | hjr
          · rw [List.getD_append l [a] _ _ hjl]
            exact hmin j hjl
          · have hj' : j = l.length := by
              simp only [List.length_append, List.length_cons, List.length_nil] at hj
              omega
            subst hj'
            rw [hga]
            exact le_of_not_lt hc
        · intro j hj
          rw [hgi, List.getD_append l [a] _ _ (lt_trans hj hi)]
          exact hfirst j hj

/-- A list with a known last element is non-empty and indexes to that
element at `length - 1`. -/
theorem getLast?_some_getD {A : Type} (l : List A) (x : A)
    (h : l.getLast? = some x) (d : A) :
    l ≠ [] ∧ l.getD (l.length - 1) d = x := by
  constructor
  · rintro rfl
    simp at h
  · rw [List.getD_eq_getElem?_getD, ← List.getLast?_eq_getElem?, h]
    rfl

/-- Loop invariant for C6: starting from a state whose `prev` is the
last trace entry and whose recorded consecutive changes are all at
least `tol`, a successful run grows the trace by at most the fuel;
every consecutive change except possibly the last stays at least
`tol`; and finishing below the fuel bound means the loop broke on a
last change strictly below `tol`. -/
theorem ikLoop_trace_spec (solver : List K → Except String (List K))
    (err : List K → K) (piv grip : K) :
    ∀ (n : ℕ) (st st' : IKState K),
      st.prev = st.trace.getLast? →
      (∀ k, k + 1 < st.trace.length →
        (tol : K) ≤ maxAbsDiff (st.trace.getD (k + 1) []) (st.trace.getD k [])) →
      ikLoop solver err piv grip n st = .ok st' →
      st'.trace.length ≤ st.trace.length + n ∧
      (∀ k, k + 2 < st'.trace.length →
        (tol : K) ≤ maxAbsDiff (st'.trace.getD (k + 1) []) (st'.trace.getD k [])) ∧
      (st'.trace.length < st.trace.length + n →
        2 ≤ st'.trace.length ∧
        maxAbsDiff (st'.trace.getD (st'.trace.length - 1) [])
          (st'.trace.getD (st'.trace.length - 2) []) < (tol : K)) := by
  intro n
  induction n with
  | zero =>
    intro st st' hprev hbig hok
    rw [ikLoop] at hok
    cases hok
    refine ⟨by omega, ?_, by omega⟩
    intro k hk
    exact hbig k (by omega)
  | succ n ih =>
    intro st st' hprev hbig hok
    rw [ikLoop] at hok
    split at hok
    · cases hok
    · rename_i c hsol
      dsimp only at hok
      split at hok
      · -- first iteration: st.prev = none, so the trace is empty
        rename_i hpnone
        have htr : st.trace = [] :=
          List.getLast?_eq_none_iff.mp (hprev.symm.trans hpnone)
        have h2prev :
            (ikNext piv (ikUpdate err st (clampServo (chain_angle_to_servo_angle piv c grip)))
              (clampServo (chain_angle_to_servo_angle piv c grip))).prev
            = (ikNext piv (ikUpdate err st (clampServo (chain_angle_to_servo_angle piv c grip)))
              (clampServo (chain_angle_to_servo_angle piv c grip))).trace.getLast? := by
          simp [ikNext, ikUpdate, htr]
        have h2big : ∀ k,
            k + 1 < (ikNext piv (ikUpdate err st (clampServo (chain_angle_to_servo_angle piv c grip)))
              (clampServo (chain_angle_to_servo_angle piv c grip))).trace.length →
            (tol : K) ≤ maxAbsDiff
              ((ikNext piv (ikUpdate err st (clampServo (chain_angle_to_servo_angle piv c grip)))
                (clampServo (chain_angle_to_servo_angle piv c grip))).trace.getD (k + 1) [])
              ((ikNext piv (ikUpdate err st (clampServo (chain_angle_to_servo_angle piv c grip)))
                (clampServo (chain_angle_to_servo_angle piv c grip))).trace.getD k []) := by
          intro k hk
          simp [ikNext, ikUpdate, htr] at hk
        obtain ⟨hlen, hmid, hearly⟩ := ih _ _ h2prev h2big hok
        have hlen2 :
            (ikNext piv (ikUpdate err st (clampServo (chain_angle_to_servo_angle piv c grip)))
              (clampServo (chain_angle_to_servo_angle piv c grip))).trace.length
            = st.trace.length + 1 := by
          simp [ikNext, ikUpdate]
        rw [hlen2] at hlen hearly
        exact ⟨by omega, hmid, fun h => hearly (by omega)⟩
      · -- later iteration: st.prev = some prev
        rename_i prev hpsome
        have hlast := getLast?_some_getD st.trace prev (hprev.symm.trans hpsome) []
        have hL1 : 1 ≤ st.trace.length := by
          have := hlast.1
          cases hmt : st.trace with
          | nil => exact absurd hmt this
          | cons a t => simp [hmt]
        split at hok
        · -- convergence break: the returned trace ends with this iteration
          rename_i hd
          cases hok
          rw [ikUpdate_trace] at *
          refine ⟨?_, ?_, ?_⟩
          · simp only [List.length_append, List.length_cons, List.length_nil]
            omega
          · intro k hk
            simp only [List.length_append, List.length_cons, List.length_nil] at hk
            rw [List.getD_append _ _ _ _ (by omega), List.getD_append _ _ _ _ (by omega)]
            exact hbig k (by omega)
          · intro _
            constructor
            · simp only [List.length_append, List.length_cons, List.length_nil]
              omega
            · have hlen3 :
                  (st.trace ++ [clampServo (chain_angle_to_servo_angle piv c grip)]).length
                  = st.trace.length + 1 := by simp
              rw [hlen3]
              have e1 : (st.trace ++ [clampServo (chain_angle_to_servo_angle piv c grip)]).getD
                  (st.trace.length + 1 - 1) [] = clampServo (chain_angle_to_servo_angle piv c grip) := by
                rw [Nat.add_sub_cancel, List.getD_append_right _ _ _ _ le_rfl]
                simp
              have e2 : (st.trace ++ [clampServo (chain_angle_to_servo_angle piv c grip)]).getD
                  (st.trace.length + 1 - 2) [] = prev := by
                rw [List.getD_append _ _ _ _ (by omega)]
                rw [← hlast.2]
                congr 1
              rw [e1, e2]
              exact hd
        · -- no convergence: keep iterating
          rename_i hd
          have h2prev :
              (ikNext piv (ikUpdate err st (clampServo (chain_angle_to_servo_angle piv c grip)))
                (clampServo (chain_angle_to_servo_angle piv c grip))).prev
              = (ikNext piv (ikUpdate err st (clampServo (chain_angle_to_servo_angle piv c grip)))
                (clampServo (chain_angle_to_servo_angle piv c grip))).trace.getLast? := by
            simp [ikNext, ikUpdate]
          have h2big : ∀ k,
              k + 1 < (st.trace ++ [clampServo (chain_angle_to_servo_angle piv c grip)]).length →
              (tol : K) ≤ maxAbsDiff
                ((st.trace ++ [clampServo (chain_angle_to_servo_angle piv c grip)]).getD (k + 1) [])
                ((st.trace ++ [clampServo (chain_angle_to_servo_angle piv c grip)]).getD k []) := by
            intro k hk
            simp only [List.length_append, List.length_cons, List.length_nil] at hk
            rcases Nat.lt_or_ge (k + 1) st.trace.length with h1 | h1
            · rw [List.getD_append _ _ _ _ h1, List.getD_append _ _ _ _ (by omega)]
              exact hbig k h1
            · have hkL : k + 1 = st.trace.length := by omega
              rw [hkL, List.getD_append_right _ _ _ _ le_rfl]
              simp only [Nat.sub_self, List.getD_cons_zero]
              rw [List.getD_append _ _ _ _ (by omega)]
              have e3 : st.trace.getD k [] = prev := by
                rw [← hlast.2]
                congr 1
                omega
              rw [e3]
              exact le_of_not_lt hd
          obtain ⟨hlen, hmid, hearly⟩ :=
            ih _ _ h2prev (by simpa [ikNext, ikUpdate] using h2big) hok
          have hlen2 :
              (ikNext piv (ikUpdate err st (clampServo (chain_angle_to_servo_angle piv c grip)))
                (clampServo (chain_angle_to_servo_angle piv c grip))).trace.length
              = st.trace.length + 1 := by
            simp [ikNext, ikUpdate]
          rw [hlen2] at hlen hearly
          exact ⟨by omega, hmid, fun h => hearly (by omega)⟩

/-- A successful `inverse_kinematics` call is a successful `ikLoop`
run from the seeded initial state, up to projections. -/
theorem inverse_kinematics_ok_ikLoop (solver : List K → Except String (List K))
    (err : List K → K) (piv : K) (target current : List K)
    (b : Option (List K)) (e : WithTop K) (tr : List (List K))
    (h : inverse_kinematics solver err piv target current = .ok (b, e, tr)) :
    ∃ st' : IKState K,
      ikLoop solver err piv (current.getD 5 0) max_iter
        { minError := ⊤, best := none, prev := none,
          currentChain := servo_angle_to_chain_angle piv current,
          trace := [] } = .ok st' ∧
      st'.best = b ∧ st'.minError = e ∧ st'.trace = tr := by
  unfold inverse_kinematics at h
  dsimp only at h
  split at h
  · cases h
  · split at h
    · rename_i e' heq
      cases h
    · rename_i st2 hloop
      simp only [Except.ok.injEq, Prod.mk.injEq] at h
      exact ⟨st2, hloop, h.1, h.2.1, h.2.2⟩

/-- C4.  `inverse_kinematics` returns the clamped servo vector with
the smallest forward-kinematics error seen across all its iterations,
together with that minimal error: whenever it returns `(some b, e)`
with iteration trace `tr`, `e` is exactly the error of `b`, `b` is the
earliest trace entry attaining the minimum, every trace entry's error
is at least `e`, and all earlier entries have strictly larger error —
so a solver whose later iteration is worse still yields the earlier,
better result. -/
theorem inverse_kinematics_returns_min_error (solver : List K → Except String (List K))
    (err : List K → K) (piv : K) (target current : List K)
    (b : List K) (e : WithTop K) (tr : List (List K))
    (h : inverse_kinematics solver err piv target current = .ok (some b, e, tr)) :
    e = (err b : WithTop K) ∧
    ∃ i, i < tr.length ∧ tr.getD i [] = b ∧
      (∀ j, j < tr.length → err b ≤ err (tr.getD j [])) ∧
      ∀ j, j < i → err b < err (tr.getD j []) := by
  obtain ⟨st2, hloop, hb, he, htr⟩ :=
    inverse_kinematics_ok_ikLoop solver err piv target current (some b) e tr h
  have hfold := ikLoop_best_fold solver err piv (current.getD 5 0) max_iter _ _
    (by simp) hloop
  have hne : st2.trace ≠ [] := by
    intro h0
    rw [h0] at hfold
    simp only [List.foldl_nil] at hfold
    rw [hb] at hfold
    simp at hfold
  obtain ⟨i, hi, hfold2, hmin, hfirst⟩ := bestFold_spec err st2.trace hne
  rw [hfold2, hb] at hfold
  simp only [Prod.mk.injEq, Option.some.injEq] at hfold
  subst htr
  subst he
  refine ⟨by rw [hfold.2, hfold.1], i, hi, hfold.1.symm, ?_, ?_⟩
  · intro j hj
    rw [hfold.1]
    exact hmin j hj
  · intro j hj
    rw [hfold.1]
    exact hfirst j hj

/-- C5.  Clamping invariant: whenever `inverse_kinematics` returns a
servo-angle vector, each of its first five entries lies within that
joint's declared `[min, max]` range from `SERVO_LIMITS`, for every
behaviour of the numeric solver and error oracle. -/
theorem inverse_kinematics_clamps_joints (solver : List K → Except String (List K))
    (err : List K → K) (piv : K) (target current : List K)
    (b : List K) (e : WithTop K) (tr : List (List K))
    (h : inverse_kinematics solver err piv target current = .ok (some b, e, tr)) :
    inLimits b := by
  obtain ⟨st2, hloop, hb, he, htr⟩ :=
    inverse_kinematics_ok_ikLoop solver err piv target current (some b) e tr h
  exact ikLoop_best_inLimits solver err piv (current.getD 5 0) max_iter _ _
    (by simp) hloop b hb

/-- C6 amended.  `inverse_kinematics` performs at most `max_iter = 10`
solver iterations, and stops early exactly when the maximum absolute
per-joint change between consecutive clamped servo iterates falls
strictly below the tolerance `tol = 1e-3` degrees (the code compares
with `<`, not `≤`): every consecutive change before the stopping point
is at least `tol`, and a trace shorter than 10 ends with a change
strictly below `tol`. -/
theorem inverse_kinematics_iteration_termination (solver : List K → Except String (List K))
    (err : List K → K) (piv : K) (target current : List K)
    (b : Option (List K)) (e : WithTop K) (tr : List (List K))
    (h : inverse_kinematics solver err piv target current = .ok (b, e, tr)) :
    tr.length ≤ max_iter ∧
    (∀ k, k + 2 < tr.length →
      (tol : K) ≤ maxAbsDiff (tr.getD (k + 1) []) (tr.getD k [])) ∧
    (tr.length < max_iter → 2 ≤ tr.length ∧
      maxAbsDiff (tr.getD (tr.length - 1) []) (tr.getD (tr.length - 2) []) < (tol : K)) := by
  obtain ⟨st2, hloop, hb, he, htr⟩ :=
    inverse_kinematics_ok_ikLoop solver err piv target current b e tr h
  obtain ⟨h1, h2, h3⟩ := ikLoop_trace_spec solver err piv (current.getD 5 0)
    max_iter _ _ (by rfl) (by intro k hk; simp at hk) hloop
  subst htr
  simp only [List.length_nil, Nat.zero_add] at h1 h3
  exact ⟨h1, h2, h3⟩

/-- Evaluation of the synthetic run: the solver iterates `t0q`, then
`t1q` (servo 1 moved by exactly `tol`), then `t1q` again; the strict
convergence test lets the loop pass the exactly-`tol` step and stop
only at the third, zero-change iteration, and the best-error tracking
returns the first iterate `t0q` with its error `131`. -/
theorem ik_run_eq : inverse_kinematics solverq errq 3 [0, 0, 0] DEFAULT_ANGLES
    = .ok (some t0q, ((131 : ℚ) : WithTop ℚ), [t0q, t1q, t1q]) := by
  have h1 : (131 : WithTop ℚ) < ⊤ := by simpa using WithTop.coe_lt_top (131 : ℚ)
  have h2 : ¬ (((131001 / 1000 : ℚ) : WithTop ℚ) < 131) := by
    rw [← WithTop.coe_ofNat 131, WithTop.coe_lt_coe]
    norm_num
  norm_num [inverse_kinematics, ikLoop, ikUpdate, ikNext, max_iter, solverq, errq,
    gq, t0q, t1q, DEFAULT_ANGLES, servo_angle_to_chain_angle,
    chain_angle_to_servo_angle, radians, degrees, clampServo, clampLimit,
    SERVO_LIMITS, maxAbsDiff, tol, List.getD, abs_of_nonneg, abs_of_nonpos, h1, h2]

/-- Witness for C4: in the synthetic run the second iterate has a
larger error than the first, and the returned pair is the first,
lower-error iterate `t0q` with its error. -/
theorem inverse_kinematics_returns_min_error_witness :
    ((131 : ℚ) : WithTop ℚ) = (errq t0q : WithTop ℚ) ∧
    ∃ i, i < ([t0q, t1q, t1q] : List (List ℚ)).length ∧
      ([t0q, t1q, t1q] : List (List ℚ)).getD i [] = t0q ∧
      (∀ j, j < ([t0q, t1q, t1q] : List (List ℚ)).length →
        errq t0q ≤ errq (([t0q, t1q, t1q] : List (List ℚ)).getD j [])) ∧
      ∀ j, j < i → errq t0q < errq (([t0q, t1q, t1q] : List (List ℚ)).getD j []) :=
  inverse_kinematics_returns_min_error solverq errq 3 [0, 0, 0] DEFAULT_ANGLES
    t0q _ _ ik_run_eq

/-- Witness for C5: the returned vector of the synthetic run has its
five kinematic joints inside `SERVO_LIMITS`. -/
theorem inverse_kinematics_clamps_joints_witness : inLimits (K := ℚ) t0q :=
  inverse_kinematics_clamps_joints solverq errq 3 [0, 0, 0] DEFAULT_ANGLES
    t0q _ _ ik_run_eq

/-- C6 counterexample.  In the synthetic run, iteration 2's clamped
servo angles differ from iteration 1's by exactly the tolerance
`tol = 1e-3`.  The claim — stop early exactly when the change equals
or falls below the tolerance — would end the run after 2 solver
iterations; the code compares with strict `<` and continues, so the
returned trace records 3 iterations. -/
theorem ik_no_early_stop_at_exact_tol :
    inverse_kinematics solverq errq 3 [0, 0, 0] DEFAULT_ANGLES
      = .ok (some t0q, ((131 : ℚ) : WithTop ℚ), [t0q, t1q, t1q]) ∧
    maxAbsDiff t1q t0q = (tol : ℚ) ∧
    ([t0q, t1q, t1q] : List (List ℚ)).length = 3 :=
  ⟨ik_run_eq,
   by norm_num [maxAbsDiff, t0q, t1q, tol, List.getD, abs_of_nonneg, abs_of_nonpos],
   by simp⟩

/-- Witness for C6's amended claim, at the synthetic three-iteration
run. -/
theorem inverse_kinematics_iteration_termination_witness :
    ([t0q, t1q, t1q] : List (List ℚ)).length ≤ max_iter ∧
    (∀ k, k + 2 < ([t0q, t1q, t1q] : List (List ℚ)).length →
      (tol : ℚ) ≤ maxAbsDiff (([t0q, t1q, t1q] : List (List ℚ)).getD (k + 1) [])
        (([t0q, t1q, t1q] : List (List ℚ)).getD k [])) ∧
    (([t0q, t1q, t1q] : List (List ℚ)).length < max_iter →
      2 ≤ ([t0q, t1q, t1q] : List (List ℚ)).length ∧
      maxAbsDiff
        (([t0q, t1q, t1q] : List (List ℚ)).getD
          (([t0q, t1q, t1q] : List (List ℚ)).length - 1) [])
        (([t0q, t1q, t1q] : List (List ℚ)).getD
          (([t0q, t1q, t1q] : List (List ℚ)).length - 2) []) < (tol : ℚ)) :=
  inverse_kinematics_iteration_termination solverq errq 3 [0, 0, 0]
    DEFAULT_ANGLES (some t0q) _ _ ik_run_eq

end InverseKinematicsProofs

section SlerpProofs

/-- C9.  Slerp degenerate fallback: for every pair of points and every
`n ≥ 1`, if either endpoint's distance from the origin is below
`1e-6`, or the angle computed between the two direction unit vectors is
below 1 degree, `_get_slerp_path` returns exactly the linear
interpolation `[p1*(1-t) + p2*t, t = i/n, i = 1..n]` — a total,
`NaN`-free list in this real-number model — which excludes `p1`, has
`n` entries, and ends exactly at `p2`. -/
theorem slerp_degenerate_linear (p1 p2 : V3) (n : ℕ) (hn : 1 ≤ n)
    (hdeg : vnorm p1 < 1e-6 ∨ vnorm p2 < 1e-6 ∨
      slerpOmega p1 p2 < radians Real.pi 1) :
    get_slerp_path p1 p2 n = lin_path p1 p2 n ∧
    (get_slerp_path p1 p2 n).length = n ∧
    (get_slerp_path p1 p2 n).getLast? = some p2 := by
  have hmain : get_slerp_path p1 p2 n = lin_path p1 p2 n := by
    unfold get_slerp_path
    by_cases h1 : vnorm p1 < 1e-6 ∨ vnorm p2 < 1e-6
    · rw [if_pos h1]
    · have homega : slerpOmega p1 p2 < radians Real.pi 1 := by
        rcases hdeg with h | h | h
        · exact absurd (Or.inl h) h1
        · exact absurd (Or.inr h) h1
        · exact h
      rw [if_neg h1]
      dsimp only
      split
      · rfl
      · rename_i hcontra
        exact absurd homega hcontra
  have hlast : (lin_path p1 p2 n).getLast? = some p2 := by
    cases n with
    | zero => omega
    | succ m =>
      rw [lin_path, List.range_succ, List.map_append, List.map_cons, List.map_nil,
        List.getLast?_concat]
      have ht : ((m : ℝ) + 1) / ((Nat.succ m : ℕ) : ℝ) = 1 := by
        push_cast
        rw [div_self]
        positivity
      rw [ht]
      simp [vadd, vsmul]
  refine ⟨hmain, ?_, ?_⟩
  · rw [hmain, lin_path]
    simp
  · rw [hmain]
    exact hlast

/-- Witness for C9 at the origin endpoint `(0, 0, 0)`, `p2 = (1, 2, 2)`
and `n = 3`. -/
theorem slerp_degenerate_linear_witness :
    get_slerp_path ((0 : ℝ), (0 : ℝ), (0 : ℝ)) ((1 : ℝ), (2 : ℝ), (2 : ℝ)) 3
      = lin_path ((0 : ℝ), (0 : ℝ), (0 : ℝ)) ((1 : ℝ), (2 : ℝ), (2 : ℝ)) 3 ∧
    (get_slerp_path ((0 : ℝ), (0 : ℝ), (0 : ℝ)) ((1 : ℝ), (2 : ℝ), (2 : ℝ)) 3).length = 3 ∧
    (get_slerp_path ((0 : ℝ), (0 : ℝ), (0 : ℝ)) ((1 : ℝ), (2 : ℝ), (2 : ℝ)) 3).getLast?
      = some ((1 : ℝ), (2 : ℝ), (2 : ℝ)) :=
  slerp_degenerate_linear _ _ 3 (by norm_num)
    (Or.inl (by norm_num [vnorm, dot3]))

end SlerpProofs

end RoboArm
